import Mathlib

/-!
Verification of the request-lifecycle core of the antigravity terminal
coding assistant: the multi-provider API orchestrator (retry, backoff,
failover, call/failover logging), the engine tool-execution round
(assistant message, tool-result ordering, batch-write permission gate),
and the file-system tools (path containment, checkpoint-before-write,
checkpoint revert).

The JavaScript sources are embedded shallowly: the file system is a flat
association list from resolved absolute path strings to contents,
asynchronous effects become explicit state threading, interactive
prompts become boolean/choice parameters, and fallible operations
return `Except`.
-/

namespace Antigravity

/-! ## Path model (Node `path.resolve` on POSIX paths, and `String.startsWith`)

`FileSystemTools._resolvePath` calls `path.resolve(this.baseDir, filePath)`
and then checks `resolvedPath.startsWith(this.baseDir)`.  We model
`path.resolve` for an absolute base directory: an absolute `filePath` is
normalized on its own, otherwise `baseDir + "/" + filePath` is
normalized.  Normalization splits on `/`, drops empty and `.`
components, and lets `..` pop the previous component (clamped at the
root). -/

/-- Character-level prefix test, the semantics of JavaScript
`String.prototype.startsWith` (and of Lean `String.startsWith`),
phrased over character lists so that concrete instances reduce. -/
def strStartsWith (s pre : String) : Bool :=
  pre.toList.isPrefixOf s.toList

/-- Split a character list at `/` separators. -/
def splitOnSlash : List Char → List (List Char)
  | [] => [[]]
  | c :: rest =>
    let r := splitOnSlash rest
    if c = '/' then [] :: r
    else
      match r with
      | [] => [[c]]
      | h :: t => (c :: h) :: t

/-- Path components of a string. -/
def pathComponents (s : String) : List String :=
  (splitOnSlash s.toList).map List.asString

/-- Process components left to right: `""` and `"."` are dropped, `".."`
pops the accumulator (a no-op at the root), anything else is pushed. -/
def resolveComponents (acc : List String) : List String → List String
  | [] => acc
  | c :: rest =>
    if c = "" ∨ c = "." then resolveComponents acc rest
    else if c = ".." then resolveComponents acc.dropLast rest
    else resolveComponents (acc ++ [c]) rest

/-- Join components with `/` separators. -/
def joinComponents : List String → String
  | [] => ""
  | [c] => c
  | c :: rest => c ++ "/" ++ joinComponents rest

/-- Normalize an absolute path string. -/
def jsNormalize (p : String) : String :=
  "/" ++ joinComponents (resolveComponents [] (pathComponents p))

/-- Node `path.resolve(base, p)` for an absolute `base`. -/
def jsResolve (base p : String) : String :=
  if strStartsWith p "/" then jsNormalize p
  else jsNormalize (base ++ "/" ++ p)

/-- `FileSystemTools._resolvePath`: resolve against the base directory
and reject (with the `Access denied` error) when the resolved path does
not pass the `startsWith(baseDir)` check. -/
def fsResolvePath (baseDir filePath : String) : Except String String :=
  let resolvedPath := jsResolve baseDir filePath
  if strStartsWith resolvedPath baseDir then Except.ok resolvedPath
  else Except.error ("Access denied: Path " ++ filePath ++ " is outside base directory")

/-- A resolved absolute path lies within the base directory: it is the
base directory itself or lives strictly below it. -/
def pathWithin (baseDir p : String) : Bool :=
  p == baseDir || strStartsWith p (baseDir ++ "/")

/-! ## Flat file-system model -/

/-- The file system as an association list from resolved absolute path
strings to file contents; directories are implicit in key prefixes. -/
abbrev FS := List (String × String)

/-- Content of the file at `p`, if it exists. -/
def fsRead : FS → String → Option String
  | [], _ => none
  | (k, v) :: rest, p => if k = p then some v else fsRead rest p

/-- Remove the file at `p`. -/
def fsDelete : FS → String → FS
  | [], _ => []
  | (k, v) :: rest, p => if k = p then fsDelete rest p else (k, v) :: fsDelete rest p

/-- Write `c` to `p`, replacing any previous content (`fs.writeFile`;
the preceding `fs.mkdir recursive` is implicit in the flat model). -/
def fsWrite (fs : FS) (p c : String) : FS :=
  (p, c) :: fsDelete fs p

/-! ## Checkpoint store (`CheckpointManager` over the database) -/

/-- A checkpoint row: the pre-write content (`none` when the file did
not exist) together with the `fileExists` flag, exactly the record
`CheckpointManager.createCheckpoint` saves (the wall-clock timestamp is
not modelled). -/
structure Checkpoint where
  filePath : String
  content : Option String
  fileExistsFlag : Bool
  deriving Repr, DecidableEq

/-- Modelled from the spec: `Database.saveCheckpoint` (the checkpoint
persistence layer is absent from the sources; the spec describes the
Checkpoint Store as append-only and always succeeding).  Appends the
row and returns a fresh id, the row's index. -/
def saveCheckpoint (store : List Checkpoint) (cp : Checkpoint) : List Checkpoint × Nat :=
  (store ++ [cp], store.length)

/-- Modelled from the spec: `Database.getCheckpoint` (absent from the
sources): look a checkpoint up by its id. -/
def getCheckpoint (store : List Checkpoint) (id : Nat) : Option Checkpoint :=
  store[id]?

/-- `CheckpointManager.createCheckpoint`: snapshot the current content
of `filePath` (or record that it did not exist) and append it to the
store, returning the new store and the checkpoint id. -/
def createCheckpoint (fs : FS) (store : List Checkpoint) (filePath : String) :
    List Checkpoint × Nat :=
  let content := fsRead fs filePath
  saveCheckpoint store ⟨filePath, content, content.isSome⟩

/-- `CheckpointManager.revertToCheckpoint`: restore the recorded
content when the file existed (with non-null content) at checkpoint
time, otherwise delete the path; unknown ids fail. -/
def revertToCheckpoint (fs : FS) (store : List Checkpoint) (id : Nat) :
    Except String FS :=
  match getCheckpoint store id with
  | none => Except.error ("Checkpoint " ++ toString id ++ " not found")
  | some cp =>
    match cp.fileExistsFlag, cp.content with
    | true, some c => Except.ok (fsWrite fs cp.filePath c)
    | _, _ => Except.ok (fsDelete fs cp.filePath)

/-! ## FileSystemTools -/

/-- The joint state the file tools act on: the disk and the checkpoint
store. -/
structure FileState where
  fs : FS
  store : List Checkpoint
  deriving Repr, DecidableEq

/-- Successful result of `FileSystemTools.writeFile`. -/
structure WriteOk where
  message : String
  checkpointId : Option Nat
  deriving Repr, DecidableEq

/-- `FileSystemTools.readFile`: resolve, then read; failures are
wrapped in the `Failed to read file` message (the ENOENT text stands
for the Node error message of a missing file). -/
def readFile (baseDir : String) (fs : FS) (filePath : String) : Except String String :=
  match fsResolvePath baseDir filePath with
  | Except.error e => Except.error ("Failed to read file " ++ filePath ++ ": " ++ e)
  | Except.ok fullPath =>
    match fsRead fs fullPath with
    | some content => Except.ok content
    | none =>
      Except.error ("Failed to read file " ++ filePath ++ ": ENOENT: no such file or directory")

/-- `FileSystemTools.writeFile`: resolve the path, create a checkpoint
of the pre-write state when a checkpoint manager is present, then —
unless in JSON mode or called with `skipConfirmation` — require the
interactive confirmation (`confirm`), and only then mutate the file.
A declined confirmation throws `User cancelled file write`; every
failure is wrapped in the `Failed to write file` message. -/
def writeFile (baseDir : String) (hasCM jsonMode confirm : Bool)
    (st : FileState) (filePath content : String) (skipConfirmation : Bool) :
    FileState × Except String WriteOk :=
  match fsResolvePath baseDir filePath with
  | Except.error e =>
    (st, Except.error ("Failed to write file " ++ filePath ++ ": " ++ e))
  | Except.ok fullPath =>
    let saved :=
      if hasCM then
        let r := createCheckpoint st.fs st.store fullPath
        (r.1, some r.2)
      else (st.store, none)
    let st1 : FileState := ⟨st.fs, saved.1⟩
    if !jsonMode && !skipConfirmation && !confirm then
      (st1, Except.error ("Failed to write file " ++ filePath ++ ": User cancelled file write"))
    else
      (⟨fsWrite st1.fs fullPath content, st1.store⟩,
        Except.ok ⟨"Successfully wrote to " ++ filePath, saved.2⟩)

/-- `FileSystemTools.deleteFile`: resolve, then unlink; a missing file
or a rejected path yields the wrapped `Failed to delete file` error. -/
def deleteFile (baseDir : String) (fs : FS) (filePath : String) :
    FS × Except String String :=
  match fsResolvePath baseDir filePath with
  | Except.error e =>
    (fs, Except.error ("Failed to delete file " ++ filePath ++ ": " ++ e))
  | Except.ok fullPath =>
    match fsRead fs fullPath with
    | none =>
      (fs, Except.error ("Failed to delete file " ++ filePath ++ ": ENOENT: no such file or directory"))
    | some _ => (fsDelete fs fullPath, Except.ok ("Successfully deleted " ++ filePath))

/-- Names of the immediate children of a directory in the flat model
(used by `FileSystemTools.listDir`; the per-entry type and the JSON
rendering of the listing are abstracted to the name list). -/
def childNames (fs : FS) (dirPath : String) : List String :=
  ((fs.map Prod.fst).filterMap fun k =>
    if strStartsWith k (dirPath ++ "/") then
      some ((k.toList.drop (dirPath.toList.length + 1)).takeWhile (fun c => c ≠ '/')).asString
    else none).eraseDups

/-- `FileSystemTools.listDir`: resolve, then list the directory. -/
def listDir (baseDir : String) (fs : FS) (dirPath : String) :
    Except String (List String) :=
  match fsResolvePath baseDir dirPath with
  | Except.error e => Except.error ("Failed to list directory " ++ dirPath ++ ": " ++ e)
  | Except.ok fullPath => Except.ok (childNames fs fullPath)

/-! ## C9 -/

/-- C9: the claim says every `FileSystemTools` operation throws
`Access denied` whenever the resolved path lies outside the base
directory, so no operation ever touches a file outside it.  The code
checks raw string-prefix containment, which a sibling directory whose
name extends the base directory's name defeats: with base directory
`/a/b`, the argument `../bc/x` resolves to `/a/bc/x`, passes the
`startsWith` check although it is outside `/a/b`, and `readFile`
happily reads the outside file. -/
theorem resolvePath_prefix_escape :
    fsResolvePath "/a/b" "../bc/x" = Except.ok "/a/bc/x"
    ∧ pathWithin "/a/b" "/a/bc/x" = false
    ∧ readFile "/a/b" [("/a/bc/x", "secret")] "../bc/x" = Except.ok "secret" :=
  ⟨rfl, rfl, rfl⟩

/-! ## API Orchestrator (`APIOrchestrator.sendMessage`)

`sendMessage` iterates `providerOrder`; unavailable providers are
skipped, available ones are pushed onto `attemptedProviders` and tried
up to `maxRetries` times.  A thrown transport error or a structurally
valid response with `success: false` both count as attempt failures:
they are logged as failed call rows, update `lastError`, and — except
after the last attempt — are followed by an exponential-backoff sleep.
The first successful response is logged as a successful call row,
triggers a failover event when the provider differs from the current
one, and is returned.  When everything fails, the aggregate error
names the attempted providers and the last error. -/

/-- The uniform provider response shape: the `success` flag, the
`error.message` field of a failure response, and the payload. -/
structure ProviderResponse where
  success : Bool
  errMsg : Option String
  content : String
  deriving Repr, DecidableEq

/-- One backend's observable behaviour: what `provider.sendMessage`
does on the given attempt index — a response, or a thrown transport
error with its message. -/
abbrev Behavior := String → Nat → Except String ProviderResponse

/-- One row of the durable API call log (`Database.logAPICall`; the
request id, status code, latency and token fields are not modelled). -/
structure CallRow where
  provider : String
  success : Bool
  errorMessage : Option String
  deriving Repr, DecidableEq

/-- The durable side effects of one `sendMessage` call: call-log rows,
failover events (`from`, `to`; the reason and context size are not
modelled), and the backoff delays slept. -/
structure OrchLog where
  calls : List CallRow
  failovers : List (String × String)
  delays : List Nat
  deriving Repr, DecidableEq

/-- The empty log. -/
def OrchLog.empty : OrchLog := ⟨[], [], []⟩

/-- What `sendMessage` produces: the successful response of some
provider, or the aggregate failure carrying the attempted providers
and the last error message. -/
inductive SendResult
  | success (provider : String) (resp : ProviderResponse)
  | failure (attempted : List String) (lastError : Option String)
  deriving Repr, DecidableEq

/-- `attemptedProviders.join(", ")`. -/
def joinCommaList : List String → String
  | [] => ""
  | [s] => s
  | s :: rest => s ++ ", " ++ joinCommaList rest

/-- The aggregate-exhaustion error message thrown when every provider
fails (`lastError?.message` of a JavaScript `undefined` prints as
`undefined`). -/
def aggregateErrorMessage (attempted : List String) (lastError : Option String) : String :=
  "All API providers failed. Attempted: " ++ joinCommaList attempted
    ++ ". Last error: " ++ lastError.getD "undefined"

/-- The backoff before the next retry:
`config.failover.retryDelayMs * 2 ** attempt` (`part_004`, line 468).
There is no cap in the source. -/
def backoffDelay (retryDelayMs attempt : Nat) : Nat :=
  retryDelayMs * 2 ^ attempt

/-- The error message an attempt produces, if it fails: the message of
a thrown transport error, or — for a `success: false` response — its
`error.message` with the `Provider returned failure response`
fallback. -/
def attemptErrMsg : Except String ProviderResponse → Option String
  | Except.error m => some m
  | Except.ok r =>
    if r.success then none else some (r.errMsg.getD "Provider returned failure response")

/-- The retry loop of `sendMessage` for one provider: `remaining`
attempts are left and `attempt` is the current zero-based attempt
index.  Returns the updated log, the updated `lastError`, and the
successful response if one was obtained. -/
def runAttempts (behavior : Behavior) (retryDelayMs : Nat) (name current : String) :
    Nat → Nat → OrchLog → Option String → OrchLog × Option String × Option ProviderResponse
  | 0, _, log, lastError => (log, lastError, none)
  | remaining + 1, attempt, log, lastError =>
    match behavior name attempt with
    | Except.ok r =>
      if r.success then
        (⟨log.calls ++ [⟨name, true, none⟩],
          log.failovers ++ (if name = current then [] else [(current, name)]),
          log.delays⟩,
          lastError, some r)
      else
        let m := r.errMsg.getD "Provider returned failure response"
        runAttempts behavior retryDelayMs name current remaining (attempt + 1)
          ⟨log.calls ++ [⟨name, false, some m⟩], log.failovers,
            log.delays ++ (if remaining = 0 then [] else [backoffDelay retryDelayMs attempt])⟩
          (some m)
    | Except.error m =>
      runAttempts behavior retryDelayMs name current remaining (attempt + 1)
        ⟨log.calls ++ [⟨name, false, some m⟩], log.failovers,
          log.delays ++ (if remaining = 0 then [] else [backoffDelay retryDelayMs attempt])⟩
        (some m)

/-- The provider loop of `sendMessage`: skip unavailable providers,
otherwise record the provider as attempted and run its retry loop;
return on the first success, and fall through to the aggregate failure
when the ranked list is exhausted. -/
def runProviders (behavior : Behavior) (available : String → Bool)
    (maxRetries retryDelayMs : Nat) (current : String) :
    List String → List String → OrchLog → Option String → OrchLog × SendResult
  | [], attempted, log, lastError => (log, SendResult.failure attempted lastError)
  | name :: rest, attempted, log, lastError =>
    if available name then
      let attempted1 := attempted ++ [name]
      match runAttempts behavior retryDelayMs name current maxRetries 0 log lastError with
      | (log1, _, some r) => (log1, SendResult.success name r)
      | (log1, lastError1, none) =>
        runProviders behavior available maxRetries retryDelayMs current rest attempted1 log1 lastError1
    else
      runProviders behavior available maxRetries retryDelayMs current rest attempted log lastError

/-- `APIOrchestrator.sendMessage`: `current` is `this.currentProvider`
after initialization, `available` is membership in the loaded provider
map, and the configuration supplies `maxRetries` and `retryDelayMs`. -/
def sendMessage (behavior : Behavior) (available : String → Bool)
    (providerOrder : List String) (current : String) (maxRetries retryDelayMs : Nat) :
    OrchLog × SendResult :=
  runProviders behavior available maxRetries retryDelayMs current
    providerOrder [] OrchLog.empty none

/-! Spec-side description of `sendMessage`, written from the spec's
words for the refinement claim C1: iterate the available backends in
rank order, giving each up to `maxRetries` attempts, and return the
first success. -/

/-- The successful response of one attempt, if that attempt succeeds
(a transport error and a `success: false` response are failures). -/
def specAttemptSuccess (behavior : Behavior) (name : String) (attempt : Nat) :
    Option ProviderResponse :=
  match behavior name attempt with
  | Except.ok r => if r.success then some r else none
  | Except.error _ => none

/-- Spec-side: the first success found by scanning the available
backends in rank order, each for up to `maxRetries` attempts. -/
def specFirstSuccess (behavior : Behavior) (available : String → Bool)
    (providerOrder : List String) (maxRetries : Nat) : Option (String × ProviderResponse) :=
  (providerOrder.filter fun n => available n).findSome? fun name =>
    ((List.range maxRetries).findSome? (specAttemptSuccess behavior name)).map
      fun r => (name, r)

/-- Spec-side: when every attempt fails, the last error seen is the
error of the final attempt of the last available backend. -/
def specLastError (behavior : Behavior) (available : String → Bool)
    (providerOrder : List String) (maxRetries : Nat) : Option String :=
  match (providerOrder.filter fun n => available n).getLast? with
  | none => none
  | some last => attemptErrMsg (behavior last (maxRetries - 1))

/-! Retry-loop lemmas. -/

/-- The retry loop returns exactly the first successful attempt in its
window, scanned in attempt order. -/
theorem runAttempts_result (behavior : Behavior) (d : Nat) (name current : String) :
    ∀ (remaining attempt : Nat) (log : OrchLog) (lastError : Option String),
      (runAttempts behavior d name current remaining attempt log lastError).2.2
        = (List.range' attempt remaining).findSome? (specAttemptSuccess behavior name) := by
  intro remaining
  induction remaining with
  | zero => intro attempt log lastError; simp [runAttempts]
  | succ n ih =>
    intro attempt log lastError
    rw [List.range'_succ, List.findSome?_cons]
    unfold runAttempts
    cases hb : behavior name attempt with
    | ok r =>
      by_cases hs : r.success
      · simp [specAttemptSuccess, hb, hs]
      · simp [specAttemptSuccess, hb, hs, ih]
    | error m => simp [specAttemptSuccess, hb, ih]

/-- When every attempt in the window fails, the retry loop's
`lastError` is the error of the final attempt. -/
theorem runAttempts_lastError (behavior : Behavior) (d : Nat) (name current : String) :
    ∀ (remaining attempt : Nat) (log : OrchLog) (lastError : Option String),
      (List.range' attempt remaining).findSome? (specAttemptSuccess behavior name) = none →
      (runAttempts behavior d name current remaining attempt log lastError).2.1
        = if remaining = 0 then lastError
          else attemptErrMsg (behavior name (attempt + remaining - 1)) := by
  intro remaining
  induction remaining with
  | zero => intro attempt log lastError _; simp [runAttempts]
  | succ n ih =>
    intro attempt log lastError hnone
    rw [List.range'_succ, List.findSome?_cons] at hnone
    have hgoal : attempt + (n + 1) - 1 = attempt + n := by omega
    unfold runAttempts
    cases hb : behavior name attempt with
    | ok r =>
      by_cases hs : r.success
      · simp [specAttemptSuccess, hb, hs] at hnone
      · have htail : (List.range' (attempt + 1) n).findSome?
            (specAttemptSuccess behavior name) = none := by
          simpa [specAttemptSuccess, hb, hs] using hnone
        simp only [hs, Bool.false_eq_true, if_false]
        rw [ih _ _ _ htail]
        cases n with
        | zero => simp [hgoal, attemptErrMsg, hb, hs]
        | succ k =>
          have h1 : attempt + 1 + (k + 1) - 1 = attempt + (k + 1) := by omega
          simp [h1, hgoal]
    | error m =>
      have htail : (List.range' (attempt + 1) n).findSome?
          (specAttemptSuccess behavior name) = none := by
        simpa [specAttemptSuccess, hb] using hnone
      rw [ih _ _ _ htail]
      cases n with
      | zero => simp [hgoal, attemptErrMsg, hb]
      | succ k =>
        have h1 : attempt + 1 + (k + 1) - 1 = attempt + (k + 1) := by omega
        simp [h1, hgoal]

/-- When every attempt in the window fails, the retry loop sleeps the
exponential backoff after every attempt but the last: the delays slept
are `retryDelayMs * 2 ^ attempt` for each non-final attempt index. -/
theorem runAttempts_delays (behavior : Behavior) (d : Nat) (name current : String) :
    ∀ (remaining attempt : Nat) (log : OrchLog) (lastError : Option String),
      (∀ a, attempt ≤ a → a < attempt + remaining → specAttemptSuccess behavior name a = none) →
      (runAttempts behavior d name current remaining attempt log lastError).1.delays
        = log.delays ++ (List.range' attempt (remaining - 1)).map (backoffDelay d) := by
  intro remaining
  induction remaining with
  | zero => intro attempt log lastError _; simp [runAttempts]
  | succ n ih =>
    intro attempt log lastError hfail
    have hhead : specAttemptSuccess behavior name attempt = none :=
      hfail attempt (Nat.le_refl attempt) (by omega)
    have htail : ∀ a, attempt + 1 ≤ a → a < attempt + 1 + n →
        specAttemptSuccess behavior name a = none := by
      intro a h1 h2; exact hfail a (by omega) (by omega)
    unfold runAttempts
    cases hb : behavior name attempt with
    | ok r =>
      by_cases hs : r.success
      · simp [specAttemptSuccess, hb, hs] at hhead
      · simp only [hs, Bool.false_eq_true, if_false]
        rw [ih (attempt + 1) _ _ htail]
        cases n with
        | zero => simp
        | succ k =>
          simp only [Nat.add_sub_cancel, Nat.succ_ne_zero, if_neg]
          rw [List.range'_succ, List.map_cons]
          simp [List.append_assoc]
    | error m =>
      rw [ih (attempt + 1) _ _ htail]
      cases n with
      | zero => simp
      | succ k =>
        simp only [Nat.add_sub_cancel, Nat.succ_ne_zero, if_neg]
        rw [List.range'_succ, List.map_cons]
        simp [List.append_assoc]


/-- Provider-loop lemma, success side: the loop returns the first
successful response found by scanning the remaining available
providers in rank order. -/
theorem runProviders_success (behavior : Behavior) (available : String → Bool)
    (maxRetries retryDelayMs : Nat) (current p : String) (r : ProviderResponse) :
    ∀ (rest attempted : List String) (log : OrchLog) (lastError : Option String),
      ((rest.filter fun n => available n).findSome? fun name =>
          ((List.range maxRetries).findSome? (specAttemptSuccess behavior name)).map
            fun resp => (name, resp)) = some (p, r) →
      (runProviders behavior available maxRetries retryDelayMs current
          rest attempted log lastError).2 = SendResult.success p r := by
  intro rest
  induction rest with
  | nil => intro attempted log lastError h; simp at h
  | cons name tail ih =>
    intro attempted log lastError h
    by_cases ha : available name
    · rw [List.filter_cons_of_pos ha, List.findSome?_cons] at h
      have hres := runAttempts_result behavior retryDelayMs name current
        maxRetries 0 log lastError
      rw [← List.range_eq_range'] at hres
      rcases hE : runAttempts behavior retryDelayMs name current maxRetries 0 log lastError
        with ⟨log1, lastError1, res1⟩
      rw [hE] at hres
      simp only at hres
      unfold runProviders
      rw [if_pos ha, hE]
      cases hfs : (List.range maxRetries).findSome? (specAttemptSuccess behavior name) with
      | some resp =>
        rw [hfs] at h hres
        subst hres
        simp only [Option.map_some', Option.some.injEq, Prod.mk.injEq] at h
        obtain ⟨rfl, rfl⟩ := h
        rfl
      | none =>
        rw [hfs] at h hres
        subst hres
        simp only [Option.map_none'] at h
        exact ih _ _ _ h
    · rw [List.filter_cons_of_neg ha] at h
      unfold runProviders
      rw [if_neg ha]
      exact ih _ _ _ h

/-- Provider-loop lemma, failure side: when no available provider ever
succeeds, the loop raises the aggregate failure naming the already
attempted providers followed by every remaining available provider,
with the last error taken from the final attempt of the last available
provider (or the incoming error when none remain). -/
theorem runProviders_failure (behavior : Behavior) (available : String → Bool)
    (maxRetries retryDelayMs : Nat) (current : String) (hmr : 1 ≤ maxRetries) :
    ∀ (rest attempted : List String) (log : OrchLog) (lastError : Option String),
      ((rest.filter fun n => available n).findSome? fun name =>
          ((List.range maxRetries).findSome? (specAttemptSuccess behavior name)).map
            fun resp => (name, resp)) = none →
      (runProviders behavior available maxRetries retryDelayMs current
          rest attempted log lastError).2
        = SendResult.failure (attempted ++ rest.filter fun n => available n)
            (match (rest.filter fun n => available n).getLast? with
              | none => lastError
              | some last => attemptErrMsg (behavior last (maxRetries - 1))) := by
  intro rest
  induction rest with
  | nil => intro attempted log lastError _; simp [runProviders]
  | cons name tail ih =>
    intro attempted log lastError h
    by_cases ha : available name
    · rw [List.filter_cons_of_pos ha, List.findSome?_cons] at h
      cases hfs : (List.range maxRetries).findSome? (specAttemptSuccess behavior name) with
      | some resp => rw [hfs] at h; simp at h
      | none =>
        rw [hfs] at h
        simp only [Option.map_none'] at h
        have hres := runAttempts_result behavior retryDelayMs name current
          maxRetries 0 log lastError
        rw [← List.range_eq_range'] at hres
        have hlast := runAttempts_lastError behavior retryDelayMs name current
          maxRetries 0 log lastError (by rw [← List.range_eq_range']; exact hfs)
        rw [if_neg (by omega)] at hlast
        have h4 : 0 + maxRetries - 1 = maxRetries - 1 := by omega
        rw [h4] at hlast
        rcases hE : runAttempts behavior retryDelayMs name current maxRetries 0 log lastError
          with ⟨log1, lastError1, res1⟩
        rw [hE] at hres hlast
        simp only at hres hlast
        rw [hfs] at hres
        subst hres
        subst hlast
        unfold runProviders
        rw [if_pos ha, hE]
        simp only
        rw [ih _ _ _ h]
        rw [List.filter_cons_of_pos ha]
        cases hft : tail.filter fun n => available n with
        | nil => simp
        | cons b l => simp [List.getLast?_cons]
    · rw [List.filter_cons_of_neg ha] at h
      unfold runProviders
      rw [if_neg ha]
      rw [List.filter_cons_of_neg ha]
      exact ih _ _ _ h

/-! ## C1, C3, C4 -/

/-- C1: with at least one backend loaded and the (validated)
configuration bound `maxRetries ≥ 1`, `sendMessage` either returns the
first successful response found by iterating the available backends in
rank order — each tried for up to `maxRetries` attempts, a transport
error or a `success: false` response both counting as attempt
failures — or raises the aggregate error carrying every attempted
backend (exactly the available ones, in rank order) and the message of
the last error seen. -/
theorem sendMessage_first_success_or_aggregate
    (behavior : Behavior) (available : String → Bool) (providerOrder : List String)
    (current : String) (maxRetries retryDelayMs : Nat)
    (hmr : 1 ≤ maxRetries)
    (hload : providerOrder.filter (fun n => available n) ≠ []) :
    (∃ p r, specFirstSuccess behavior available providerOrder maxRetries = some (p, r)
        ∧ (sendMessage behavior available providerOrder current maxRetries retryDelayMs).2
            = SendResult.success p r)
    ∨ (specFirstSuccess behavior available providerOrder maxRetries = none
        ∧ (sendMessage behavior available providerOrder current maxRetries retryDelayMs).2
            = SendResult.failure (providerOrder.filter fun n => available n)
                (specLastError behavior available providerOrder maxRetries)) := by
  cases hs : specFirstSuccess behavior available providerOrder maxRetries with
  | some pr =>
    obtain ⟨p, r⟩ := pr
    left
    refine ⟨p, r, rfl, ?_⟩
    exact runProviders_success behavior available maxRetries retryDelayMs current p r
      providerOrder [] OrchLog.empty none hs
  | none =>
    right
    refine ⟨rfl, ?_⟩
    have h2 := runProviders_failure behavior available maxRetries retryDelayMs current hmr
      providerOrder [] OrchLog.empty none hs
    rw [List.nil_append] at h2
    show (runProviders behavior available maxRetries retryDelayMs current
      providerOrder [] OrchLog.empty none).2 = _
    rw [h2]
    rfl

/-- A backend behaviour for concrete runs: `claude` always answers
with a 429-style soft error, `gemini` succeeds immediately. -/
def demoBehavior : Behavior := fun name _ =>
  if name = "claude" then Except.ok ⟨false, some "Rate limit exceeded", ""⟩
  else Except.ok ⟨true, none, "Secondary response"⟩

/-- Witness for C1 at a concrete configuration. -/
theorem sendMessage_first_success_or_aggregate_witness :
    (∃ p r, specFirstSuccess demoBehavior (fun _ => true) ["claude", "gemini"] 3
          = some (p, r)
        ∧ (sendMessage demoBehavior (fun _ => true) ["claude", "gemini"] "claude" 3 1000).2
            = SendResult.success p r)
    ∨ (specFirstSuccess demoBehavior (fun _ => true) ["claude", "gemini"] 3 = none
        ∧ (sendMessage demoBehavior (fun _ => true) ["claude", "gemini"] "claude" 3 1000).2
            = SendResult.failure (["claude", "gemini"].filter fun _ => (true : Bool))
                (specLastError demoBehavior (fun _ => true) ["claude", "gemini"] 3)) :=
  sendMessage_first_success_or_aggregate demoBehavior (fun _ => true)
    ["claude", "gemini"] "claude" 3 1000 (by decide) (by decide)

/-- C3: concrete failover scenario.  The first-ranked backend
(`claude`, the current provider) soft-fails all 3 retry attempts and
the second-ranked backend (`gemini`) succeeds on its first attempt:
`sendMessage` returns the second backend's response, the durable log
holds exactly 4 call rows (3 failures, then 1 success) and exactly one
failover event from `claude` to `gemini` (and the two backoff sleeps
of 1000 ms and 2000 ms). -/
theorem failover_scenario_secondary_succeeds :
    sendMessage demoBehavior (fun _ => true) ["claude", "gemini"] "claude" 3 1000
      = (⟨[⟨"claude", false, some "Rate limit exceeded"⟩,
            ⟨"claude", false, some "Rate limit exceeded"⟩,
            ⟨"claude", false, some "Rate limit exceeded"⟩,
            ⟨"gemini", true, none⟩],
          [("claude", "gemini")],
          [1000, 2000]⟩,
          SendResult.success "gemini" ⟨true, none, "Secondary response"⟩) := by
  rfl

/-- C4 counterexample: the claim says the retry delay
`baseDelay * 2 ^ attempt` never exceeds a fixed upper bound, but the
source applies no cap: for the default `retryDelayMs = 1000` no bound
dominates every attempt index. -/
theorem backoffDelay_uncapped :
    ¬ ∃ cap : Nat, ∀ attempt : Nat, backoffDelay 1000 attempt ≤ cap := by
  rintro ⟨cap, h⟩
  have h1 := h cap
  rw [backoffDelay] at h1
  have h2 : cap < 2 ^ cap := Nat.lt_two_pow cap
  have h3 : 2 ^ cap ≤ 1000 * 2 ^ cap := Nat.le_mul_of_pos_left (2 ^ cap) (by norm_num)
  exact absurd (lt_of_lt_of_le h2 (le_trans h3 h1)) (lt_irrefl cap)

/-- C4 (amended): between consecutive attempts against one backend the
orchestrator sleeps exactly `retryDelayMs * 2 ^ attempt` (attempt
counted from 0, no sleep after the final attempt); the delay is not
capped — it is bounded only through `maxRetries` limiting the attempt
index. -/
theorem retry_delays_exponential (behavior : Behavior) (d : Nat) (name current : String)
    (maxRetries : Nat) (log : OrchLog) (lastError : Option String)
    (hfail : ∀ a, a < maxRetries → specAttemptSuccess behavior name a = none) :
    (runAttempts behavior d name current maxRetries 0 log lastError).1.delays
      = log.delays ++ (List.range (maxRetries - 1)).map (backoffDelay d) := by
  rw [List.range_eq_range']
  exact runAttempts_delays behavior d name current maxRetries 0 log lastError
    (fun a _ h2 => hfail a (by omega))

/-- Witness for C4's amended theorem at a concrete all-failing run. -/
theorem retry_delays_exponential_witness :
    (runAttempts demoBehavior 1000 "claude" "claude" 3 0 OrchLog.empty none).1.delays
      = OrchLog.empty.delays ++ (List.range (3 - 1)).map (backoffDelay 1000) :=
  retry_delays_exponential demoBehavior 1000 "claude" "claude" 3 OrchLog.empty none
    (by decide)

/-! ## Engine tool-execution round (`AntigravityEngine._executeWithTools`)

One round of the tool-execution loop: the assistant's raw response
(content plus tool-call descriptors) is appended to the conversation
before any tool runs; non-write tool calls are then executed
individually in call order, and write calls go through the single-write
path (exactly one) or the batch-write permission gate (two or more).
Interactive inputs become parameters: `jsonMode` is `ui.jsonMode`,
`confirmF` answers `ui.confirmAction` per path, and `choice` answers
`ui.confirmBatchOperation`. -/

/-- The permission modes of `PermissionManager`. -/
inductive PermMode
  | default
  | autoEdit
  | planOnly
  deriving Repr, DecidableEq

/-- The choice offered by `ui.confirmBatchOperation`. -/
inductive BatchChoice
  | applyAll
  | reviewEach
  | cancel
  deriving Repr, DecidableEq

/-- A tool-call descriptor emitted by a backend: id, tool name, and
the `path`/`content` arguments of the file tools. -/
structure ToolCall where
  id : String
  name : String
  path : String
  content : String
  deriving Repr, DecidableEq

/-- Message roles allowed by the store (tool results are recorded with
the `system` role). -/
inductive Role
  | user
  | assistant
  | system
  deriving Repr, DecidableEq

/-- Message metadata: tool-call descriptors on assistant messages,
`(toolCallId, toolName)` on tool-result messages. -/
inductive Meta
  | plain
  | toolCalls (tcs : List ToolCall)
  | toolResult (toolCallId toolName : String)
  deriving Repr, DecidableEq

/-- A stored conversation message (`Database.addMessage` row; model,
tokens and timestamps are not needed by the claims). -/
structure Msg where
  role : Role
  content : String
  provider : Option String
  meta : Meta
  deriving Repr, DecidableEq

/-- The assistant response the orchestrator hands back to the engine. -/
structure AssistantResp where
  content : String
  provider : String
  toolCalls : Option (List ToolCall)
  deriving Repr, DecidableEq

/-- `ContextManager.addAssistantMessage` applied to the raw response:
the metadata carries the tool-call descriptors exactly when the
response has a `toolCalls` field. -/
def assistantMsg (resp : AssistantResp) : Msg :=
  ⟨Role.assistant, resp.content, some resp.provider,
    match resp.toolCalls with
    | none => Meta.plain
    | some tcs => Meta.toolCalls tcs⟩

/-- `ContextManager.addToolResultMessage`: a `system`-role message
whose metadata keys it to the tool call. -/
def toolResultMsg (toolCallId toolName result : String) : Msg :=
  ⟨Role.system, result, some "system", Meta.toolResult toolCallId toolName⟩

/-- The tool-result key of a message, when it is a tool result. -/
def resultKey (m : Msg) : Option (String × String) :=
  match m.meta with
  | Meta.toolResult i n => some (i, n)
  | _ => none

/-- The engine state a round acts on: the conversation so far and the
file/checkpoint state. -/
structure EngineState where
  msgs : List Msg
  file : FileState
  deriving Repr, DecidableEq

/-- JSON rendering of `writeFile`'s result object, as
`addToolResultMessage` stringifies it. -/
def renderWriteOk (ok : WriteOk) : String :=
  "\x7b\"success\":true,\"message\":\"" ++ ok.message ++ "\",\"checkpointId\":"
    ++ (match ok.checkpointId with
        | some i => "\"" ++ toString i ++ "\""
        | none => "null") ++ "\x7d"

/-- JSON-ish rendering of a directory listing, as
`addToolResultMessage` stringifies the entry array (abstracted to the
joined child names). -/
def renderListing (entries : List String) : String :=
  joinCommaList entries

/-- `AntigravityEngine._executeTool`: dispatch on the tool name; every
thrown error is caught and converted into an `Error: ...` result
string, so a tool failure never aborts the round. -/
def executeTool (jsonMode : Bool) (confirmF : String → Bool) (baseDir : String)
    (hasCM : Bool) (f : FileState) (name pathArg contentArg : String) :
    FileState × String :=
  if name = "read_file" then
    match readFile baseDir f.fs pathArg with
    | Except.ok c => (f, c)
    | Except.error e => (f, "Error: " ++ e)
  else if name = "write_file" then
    match writeFile baseDir hasCM jsonMode (confirmF pathArg) f pathArg contentArg false with
    | (f1, Except.ok ok) => (f1, renderWriteOk ok)
    | (f1, Except.error e) => (f1, "Error: " ++ e)
  else if name = "list_dir" then
    match listDir baseDir f.fs pathArg with
    | Except.ok entries => (f, renderListing entries)
    | Except.error e => (f, "Error: " ++ e)
  else if name = "delete_file" then
    match deleteFile baseDir f.fs pathArg with
    | (fs1, Except.ok msg) => (⟨fs1, f.store⟩, msg)
    | (fs1, Except.error e) => (⟨fs1, f.store⟩, "Error: " ++ e)
  else (f, "Error: Unknown tool: " ++ name)

/-- The shape every tool loop of the engine shares: execute the step
for each call in order, appending exactly one tool-result message per
call and threading the file state. -/
def roundFold (step : FileState → ToolCall → FileState × String) :
    EngineState → List ToolCall → EngineState
  | st, [] => st
  | st, tc :: rest =>
    let p := step st.file tc
    roundFold step ⟨st.msgs ++ [toolResultMsg tc.id tc.name p.2], p.1⟩ rest

/-- The single-call step of `_executeTool` on a tool-call descriptor. -/
def execToolStep (jsonMode : Bool) (confirmF : String → Bool) (baseDir : String)
    (hasCM : Bool) (f : FileState) (tc : ToolCall) : FileState × String :=
  executeTool jsonMode confirmF baseDir hasCM f tc.name tc.path tc.content

/-- The apply-all step of `_executeBatchWrite`: `writeFile` with
`skipConfirmation = true`, errors caught into `Error: ...` results. -/
def applyAllStep (jsonMode : Bool) (confirmF : String → Bool) (baseDir : String)
    (hasCM : Bool) (f : FileState) (tc : ToolCall) : FileState × String :=
  match writeFile baseDir hasCM jsonMode (confirmF tc.path) f tc.path tc.content true with
  | (f1, Except.ok ok) => (f1, renderWriteOk ok)
  | (f1, Except.error e) => (f1, "Error: " ++ e)

/-- `AntigravityEngine._executeBatchWrite`: in plan-only mode nothing
is written and every pending call resolves to the skip message; in
default mode the batch choice decides between cancelling everything,
applying all writes without per-file confirmation, or reviewing each
through the normal single-write path; auto-edit behaves like
apply-all. -/
def executeBatchWrite (mode : PermMode) (jsonMode : Bool) (confirmF : String → Bool)
    (choice : BatchChoice) (baseDir : String) (hasCM : Bool)
    (st : EngineState) (writeOps : List ToolCall) : EngineState :=
  if mode = PermMode.planOnly then
    roundFold (fun f _ => (f, "Skipped: Plan-only mode")) st writeOps
  else
    let c := if mode = PermMode.default then choice else BatchChoice.applyAll
    if c = BatchChoice.cancel then
      roundFold (fun f _ => (f, "Cancelled by user")) st writeOps
    else if c = BatchChoice.applyAll then
      roundFold (applyAllStep jsonMode confirmF baseDir hasCM) st writeOps
    else
      roundFold (execToolStep jsonMode confirmF baseDir hasCM) st writeOps

/-- One tool round of `AntigravityEngine._executeWithTools`: append
the assistant message first, then — when the response carries tool
calls — execute the non-write calls individually in call order,
followed by the write calls through the single-write path (one call)
or the batch-write gate (several). -/
def runRound (mode : PermMode) (jsonMode : Bool) (confirmF : String → Bool)
    (choice : BatchChoice) (baseDir : String) (hasCM : Bool)
    (st : EngineState) (resp : AssistantResp) : EngineState :=
  let st1 : EngineState := ⟨st.msgs ++ [assistantMsg resp], st.file⟩
  match resp.toolCalls with
  | none => st1
  | some calls =>
    if calls.length = 0 then st1
    else
      let writeOps := calls.filter fun tc => tc.name = "write_file"
      let otherOps := calls.filter fun tc => tc.name ≠ "write_file"
      let st2 := roundFold (execToolStep jsonMode confirmF baseDir hasCM) st1 otherOps
      if writeOps.length > 1 then
        executeBatchWrite mode jsonMode confirmF choice baseDir hasCM st2 writeOps
      else
        roundFold (execToolStep jsonMode confirmF baseDir hasCM) st2 writeOps

/-- The write-type calls of a response (`tc.name === 'write_file'`). -/
def writeCallsOf (resp : AssistantResp) : List ToolCall :=
  (resp.toolCalls.getD []).filter fun tc => tc.name = "write_file"

/-- The non-write calls of a response. -/
def otherCallsOf (resp : AssistantResp) : List ToolCall :=
  (resp.toolCalls.getD []).filter fun tc => tc.name ≠ "write_file"

/-! ## Engine round lemmas -/

/-- Every tool loop appends exactly one `system`-role tool-result
message per call, keyed to the calls in order. -/
theorem roundFold_shape (step : FileState → ToolCall → FileState × String) :
    ∀ (l : List ToolCall) (st : EngineState),
      ∃ rs : List Msg,
        (roundFold step st l).msgs = st.msgs ++ rs
        ∧ rs.map resultKey = l.map (fun tc => some (tc.id, tc.name))
        ∧ ∀ m ∈ rs, m.role = Role.system := by
  intro l
  induction l with
  | nil => intro st; exact ⟨[], by simp [roundFold], by simp, by simp⟩
  | cons tc rest ih =>
    intro st
    obtain ⟨rs, h1, h2, h3⟩ := ih
      ⟨st.msgs ++ [toolResultMsg tc.id tc.name (step st.file tc).2], (step st.file tc).1⟩
    refine ⟨toolResultMsg tc.id tc.name (step st.file tc).2 :: rs, ?_, ?_, ?_⟩
    · simp only [roundFold]
      rw [h1]
      simp
    · simp [h2, resultKey, toolResultMsg]
    · intro m hm
      rcases List.mem_cons.mp hm with h | h
      · rw [h]; rfl
      · exact h3 m h

/-- A tool loop whose step writes nothing and answers the constant
result string leaves the file state unchanged and appends exactly the
constant tool-result per call. -/
theorem roundFold_const (s : String) :
    ∀ (l : List ToolCall) (st : EngineState),
      roundFold (fun f _ => (f, s)) st l
        = ⟨st.msgs ++ l.map (fun tc => toolResultMsg tc.id tc.name s), st.file⟩ := by
  intro l
  induction l with
  | nil => intro st; simp [roundFold]
  | cons tc rest ih =>
    intro st
    simp only [roundFold]
    rw [ih]
    simp

/-- Partitioning an all-write call list. -/
theorem filter_write_all (l : List ToolCall) (h : ∀ tc ∈ l, tc.name = "write_file") :
    (l.filter fun tc => tc.name = "write_file") = l
    ∧ (l.filter fun tc => tc.name ≠ "write_file") = [] := by
  induction l with
  | nil => simp
  | cons tc rest ih =>
    have htc := h tc (by simp)
    have hrest := ih fun x hx => h x (by simp [hx])
    constructor
    · rw [List.filter_cons_of_pos (by simp [htc]), hrest.1]
    · rw [List.filter_cons_of_neg (by simp [htc]), hrest.2]

/-- Every branch of the batch-write gate appends exactly one
tool-result per pending write call, in order. -/
theorem executeBatchWrite_shape (mode : PermMode) (jsonMode : Bool)
    (confirmF : String → Bool) (choice : BatchChoice) (baseDir : String) (hasCM : Bool)
    (st : EngineState) (writeOps : List ToolCall) :
    ∃ rs : List Msg,
      (executeBatchWrite mode jsonMode confirmF choice baseDir hasCM st writeOps).msgs
        = st.msgs ++ rs
      ∧ rs.map resultKey = writeOps.map (fun tc => some (tc.id, tc.name))
      ∧ ∀ m ∈ rs, m.role = Role.system := by
  unfold executeBatchWrite
  by_cases hm : mode = PermMode.planOnly
  · rw [if_pos hm]; exact roundFold_shape _ writeOps st
  · rw [if_neg hm]
    by_cases hc : (if mode = PermMode.default then choice else BatchChoice.applyAll)
        = BatchChoice.cancel
    · rw [if_pos hc]; exact roundFold_shape _ writeOps st
    · rw [if_neg hc]
      by_cases hc2 : (if mode = PermMode.default then choice else BatchChoice.applyAll)
          = BatchChoice.applyAll
      · rw [if_pos hc2]; exact roundFold_shape _ writeOps st
      · rw [if_neg hc2]; exact roundFold_shape _ writeOps st

/-! ## C2 -/

/-- C2 (amended): after any tool-calling round the conversation is the
previous messages, then the assistant message (appended with its
tool-call descriptors before any tool ran), then exactly one
`system`-role tool-result message per tool call — keyed in the order
non-write calls first (in call order) followed by write calls (in call
order), which is the original call order only when the calls are not a
mix of both kinds. -/
theorem round_one_result_per_call (mode : PermMode) (jsonMode : Bool)
    (confirmF : String → Bool) (choice : BatchChoice) (baseDir : String) (hasCM : Bool)
    (st : EngineState) (resp : AssistantResp) :
    ∃ rs : List Msg,
      (runRound mode jsonMode confirmF choice baseDir hasCM st resp).msgs
        = st.msgs ++ [assistantMsg resp] ++ rs
      ∧ rs.map resultKey
        = (otherCallsOf resp ++ writeCallsOf resp).map (fun tc => some (tc.id, tc.name))
      ∧ ∀ m ∈ rs, m.role = Role.system := by
  cases hresp : resp.toolCalls with
  | none =>
    exact ⟨[], by simp [runRound, hresp], by simp [otherCallsOf, writeCallsOf, hresp], by simp⟩
  | some calls =>
    by_cases h0 : calls.length = 0
    · have hnil : calls = [] := List.length_eq_zero.mp h0
      subst hnil
      exact ⟨[], by simp [runRound, hresp], by simp [otherCallsOf, writeCallsOf, hresp], by simp⟩
    · obtain ⟨rs1, e1, k1, r1⟩ := roundFold_shape (execToolStep jsonMode confirmF baseDir hasCM)
        (calls.filter fun tc => tc.name ≠ "write_file")
        ⟨st.msgs ++ [assistantMsg resp], st.file⟩
      simp only [runRound, hresp, h0, if_neg, if_false]
      by_cases hw : (calls.filter fun tc => tc.name = "write_file").length > 1
      · rw [if_pos hw]
        obtain ⟨rs2, e2, k2, r2⟩ := executeBatchWrite_shape mode jsonMode confirmF choice
          baseDir hasCM
          (roundFold (execToolStep jsonMode confirmF baseDir hasCM)
            ⟨st.msgs ++ [assistantMsg resp], st.file⟩
            (calls.filter fun tc => tc.name ≠ "write_file"))
          (calls.filter fun tc => tc.name = "write_file")
        refine ⟨rs1 ++ rs2, ?_, ?_, ?_⟩
        · rw [e2, e1]; simp
        · simp [k1, k2, otherCallsOf, writeCallsOf, hresp]
        · intro m hm
          rcases List.mem_append.mp hm with h | h
          · exact r1 m h
          · exact r2 m h
      · rw [if_neg hw]
        obtain ⟨rs2, e2, k2, r2⟩ := roundFold_shape (execToolStep jsonMode confirmF baseDir hasCM)
          (calls.filter fun tc => tc.name = "write_file")
          (roundFold (execToolStep jsonMode confirmF baseDir hasCM)
            ⟨st.msgs ++ [assistantMsg resp], st.file⟩
            (calls.filter fun tc => tc.name ≠ "write_file"))
        refine ⟨rs1 ++ rs2, ?_, ?_, ?_⟩
        · rw [e2, e1]; simp
        · simp [k1, k2, otherCallsOf, writeCallsOf, hresp]
        · intro m hm
          rcases List.mem_append.mp hm with h | h
          · exact r1 m h
          · exact r2 m h

/-- A round mixing one write call (first) and one read call (second),
for the C2 counterexample. -/
def mixedResp : AssistantResp :=
  ⟨"", "gemini", some [⟨"t1", "write_file", "f.txt", "hello"⟩, ⟨"t2", "read_file", "f.txt", ""⟩]⟩

/-- C2 counterexample: the claim says the tool-result messages appear
in the same order as the tool calls in the assistant response; in a
round whose calls are `[write_file (t1), read_file (t2)]` the engine
executes the read first, so the stored result keys are
`t2, t1` — not the call order `t1, t2`. -/
theorem round_results_not_in_call_order :
    ((runRound PermMode.default true (fun _ => true) BatchChoice.applyAll "/b" true
        ⟨[], ⟨[], []⟩⟩ mixedResp).msgs.map resultKey)
      = [none, some ("t2", "read_file"), some ("t1", "write_file")]
    ∧ ([none, some ("t2", "read_file"), some ("t1", "write_file")]
        ≠ [none] ++ (mixedResp.toolCalls.getD []).map (fun tc => some (tc.id, tc.name))) := by
  exact ⟨rfl, by decide⟩

/-! ## C7 -/

/-- C7: when a round consists of two or more `write_file` calls and
the permission mode is plan-only, the batch-write gate mutates
nothing — the file system and the checkpoint store are untouched — and
every pending write call is resolved with the `Skipped: Plan-only
mode` tool-result, in call order. -/
theorem batch_write_plan_only_skips (jsonMode : Bool) (confirmF : String → Bool)
    (choice : BatchChoice) (baseDir : String) (hasCM : Bool)
    (st : EngineState) (resp : AssistantResp)
    (hall : ∀ tc ∈ resp.toolCalls.getD [], tc.name = "write_file")
    (hlen : 2 ≤ (resp.toolCalls.getD []).length) :
    runRound PermMode.planOnly jsonMode confirmF choice baseDir hasCM st resp
      = ⟨st.msgs ++ [assistantMsg resp]
          ++ (resp.toolCalls.getD []).map
              (fun tc => toolResultMsg tc.id tc.name "Skipped: Plan-only mode"),
          st.file⟩ := by
  cases hresp : resp.toolCalls with
  | none => rw [hresp] at hlen; simp at hlen
  | some calls =>
    rw [hresp] at hall hlen
    simp only [Option.getD_some] at hall hlen
    have hf := filter_write_all calls hall
    have h0 : ¬ calls.length = 0 := by omega
    simp only [runRound, hresp, h0, if_neg, if_false]
    rw [hf.1, hf.2]
    have hw : calls.length > 1 := by omega
    rw [if_pos hw]
    simp only [roundFold]
    unfold executeBatchWrite
    rw [if_pos rfl]
    rw [roundFold_const]
    simp [hresp]

/-- A round of two pending write calls, for the C7 witness. -/
def twoWriteResp : AssistantResp :=
  ⟨"", "gemini", some [⟨"t1", "write_file", "a.txt", "x"⟩, ⟨"t2", "write_file", "b.txt", "y"⟩]⟩

/-- Witness for C7 at a concrete two-write round. -/
theorem batch_write_plan_only_skips_witness :
    (∀ tc ∈ twoWriteResp.toolCalls.getD [], tc.name = "write_file")
    ∧ 2 ≤ (twoWriteResp.toolCalls.getD []).length
    ∧ runRound PermMode.planOnly false (fun _ => true) BatchChoice.applyAll "/b" true
        ⟨[], ⟨[], []⟩⟩ twoWriteResp
      = ⟨[] ++ [assistantMsg twoWriteResp]
          ++ (twoWriteResp.toolCalls.getD []).map
              (fun tc => toolResultMsg tc.id tc.name "Skipped: Plan-only mode"),
          ⟨[], []⟩⟩ :=
  ⟨by decide, by decide,
    batch_write_plan_only_skips false (fun _ => true) BatchChoice.applyAll "/b" true
      ⟨[], ⟨[], []⟩⟩ twoWriteResp (by decide) (by decide)⟩

/-! ## C10 -/

/-- A round holding a single write call, used for the concrete parts
of C10. -/
def planWriteResp : AssistantResp :=
  ⟨"", "gemini", some [⟨"t1", "write_file", "f.txt", "new"⟩]⟩

/-- A round holding a single delete call, used for the concrete parts
of C10. -/
def planDeleteResp : AssistantResp :=
  ⟨"", "gemini", some [⟨"t2", "delete_file", "g.txt", ""⟩]⟩

/-- C10: the engine consults the permission mode only on the
batch-write path, which is taken only for rounds with at least two
`write_file` calls: a round with at most one write call produces the
same result in every permission mode (first conjunct), so in plan-only
mode a single `write_file` call still writes the file (second
conjunct; the single-write path asks the interactive confirmation, not
the permission manager, and JSON mode suppresses even that) and a
`delete_file` call still deletes it (third conjunct, with no
confirmation at all). -/
theorem permission_mode_only_batch_path :
    (∀ (m1 m2 : PermMode) (jsonMode : Bool) (confirmF : String → Bool)
        (choice : BatchChoice) (baseDir : String) (hasCM : Bool)
        (st : EngineState) (resp : AssistantResp),
        (writeCallsOf resp).length ≤ 1 →
        runRound m1 jsonMode confirmF choice baseDir hasCM st resp
          = runRound m2 jsonMode confirmF choice baseDir hasCM st resp)
    ∧ fsRead (runRound PermMode.planOnly true (fun _ => true) BatchChoice.applyAll "/p" true
        ⟨[], ⟨[("/p/g.txt", "old")], []⟩⟩ planWriteResp).file.fs "/p/f.txt" = some "new"
    ∧ fsRead (runRound PermMode.planOnly true (fun _ => true) BatchChoice.applyAll "/p" true
        ⟨[], ⟨[("/p/g.txt", "old")], []⟩⟩ planDeleteResp).file.fs "/p/g.txt" = none := by
  refine ⟨?_, by decide, by decide⟩
  intro m1 m2 jsonMode confirmF choice baseDir hasCM st resp h
  cases hresp : resp.toolCalls with
  | none => simp [runRound, hresp]
  | some calls =>
    rw [writeCallsOf, hresp, Option.getD_some] at h
    by_cases h0 : calls.length = 0
    · simp [runRound, hresp, h0]
    · have hw : ¬ ((calls.filter fun tc => tc.name = "write_file").length > 1) := by omega
      simp [runRound, hresp, h0, hw]

/-- Witness for C10's quantified conjunct at a concrete one-write
round: default mode and plan-only mode produce identical results. -/
theorem permission_mode_only_batch_path_witness :
    (writeCallsOf planWriteResp).length ≤ 1
    ∧ runRound PermMode.default true (fun _ => true) BatchChoice.applyAll "/p" true
        ⟨[], ⟨[], []⟩⟩ planWriteResp
      = runRound PermMode.planOnly true (fun _ => true) BatchChoice.applyAll "/p" true
        ⟨[], ⟨[], []⟩⟩ planWriteResp :=
  ⟨by decide,
    permission_mode_only_batch_path.1 PermMode.default PermMode.planOnly true
      (fun _ => true) BatchChoice.applyAll "/p" true ⟨[], ⟨[], []⟩⟩ planWriteResp (by decide)⟩

/-! ## C6 -/

/-- C6 (amended): when the user declines the confirmation prompt for a
single `write_file` call in default permission mode, `writeFile`
throws the `User cancelled file write` error, the file system is left
unchanged, the checkpoint store only gains the pre-write snapshot (no
existing checkpoint content is altered), and the round records — and
survives to record — one tool-result message whose content is the
caught error text `Error: Failed to write file <path>: User cancelled
file write`; the literal `Cancelled by user` text is used only on the
batch-cancel path. -/
theorem single_write_decline_records_error (confirmF : String → Bool)
    (choice : BatchChoice) (baseDir : String) (st : EngineState)
    (resp : AssistantResp) (tc : ToolCall) (full : String)
    (htc : resp.toolCalls = some [tc])
    (hname : tc.name = "write_file")
    (hres : fsResolvePath baseDir tc.path = Except.ok full)
    (hconf : confirmF tc.path = false) :
    runRound PermMode.default false confirmF choice baseDir true st resp
      = ⟨st.msgs ++ [assistantMsg resp,
            toolResultMsg tc.id tc.name
              ("Error: Failed to write file " ++ tc.path ++ ": User cancelled file write")],
          ⟨st.file.fs,
            st.file.store ++ [⟨full, fsRead st.file.fs full, (fsRead st.file.fs full).isSome⟩]⟩⟩ := by
  have h0 : ¬ ([tc].length = 0) := by simp
  simp only [runRound, htc, h0, if_neg, if_false]
  rw [List.filter_cons_of_pos (by simp [hname]), List.filter_cons_of_neg (by simp [hname]),
    List.filter_nil, List.filter_nil]
  simp only [List.length_cons, List.length_nil, gt_iff_lt, Nat.lt_irrefl, if_false]
  simp only [roundFold, execToolStep, executeTool, hname]
  rw [if_pos trivial]
  simp only [writeFile, hres, createCheckpoint, saveCheckpoint, hconf]
  simp
  congr 1

/-- The single-write round declined by the user, for C6's
counterexample. -/
def declinedResp : AssistantResp :=
  ⟨"", "gemini", some [⟨"t1", "write_file", "f.txt", "hi"⟩]⟩

/-- C6 counterexample: the claim says the recorded tool-result is
`cancelled by user`; in the concrete declined single write the
recorded tool-result content is the caught error text, which differs
from that string (in either casing). -/
theorem single_write_decline_not_cancelled_by_user :
    ((runRound PermMode.default false (fun _ => false) BatchChoice.applyAll "/b" true
        ⟨[], ⟨[], []⟩⟩ declinedResp).msgs.map Msg.content)
      = ["", "Error: Failed to write file f.txt: User cancelled file write"]
    ∧ "Error: Failed to write file f.txt: User cancelled file write" ≠ "cancelled by user"
    ∧ "Error: Failed to write file f.txt: User cancelled file write" ≠ "Cancelled by user" :=
  ⟨rfl, by decide, by decide⟩

/-- Witness for C6's amended theorem at the concrete declined write. -/
theorem single_write_decline_records_error_witness :
    declinedResp.toolCalls = some [⟨"t1", "write_file", "f.txt", "hi"⟩]
    ∧ fsResolvePath "/b" "f.txt" = Except.ok "/b/f.txt"
    ∧ runRound PermMode.default false (fun _ => false) BatchChoice.applyAll "/b" true
        ⟨[], ⟨[], []⟩⟩ declinedResp
      = ⟨[] ++ [assistantMsg declinedResp,
            toolResultMsg "t1" "write_file"
              ("Error: Failed to write file " ++ "f.txt" ++ ": User cancelled file write")],
          ⟨[], [] ++ [⟨"/b/f.txt", fsRead [] "/b/f.txt", (fsRead [] "/b/f.txt").isSome⟩]⟩⟩ :=
  ⟨rfl, rfl,
    single_write_decline_records_error (fun _ => false) BatchChoice.applyAll "/b"
      ⟨[], ⟨[], []⟩⟩ declinedResp ⟨"t1", "write_file", "f.txt", "hi"⟩ "/b/f.txt"
      rfl rfl rfl rfl⟩

/-! ## C5 -/

/-- C5: every write through `FileSystemTools.writeFile` (with the
checkpoint manager attached, as the engine always does) that mutates
the file system first appends a checkpoint recording the file's
pre-write content — or that it did not exist — to the store; the file
is never mutated without that snapshot of its prior state having been
created. -/
theorem writeFile_checkpoint_before_mutation (baseDir : String)
    (jsonMode confirm skipConfirmation : Bool) (st : FileState) (filePath content : String)
    (hmut : (writeFile baseDir true jsonMode confirm st filePath content
        skipConfirmation).1.fs ≠ st.fs) :
    ∃ full, fsResolvePath baseDir filePath = Except.ok full
      ∧ (writeFile baseDir true jsonMode confirm st filePath content
          skipConfirmation).1.fs = fsWrite st.fs full content
      ∧ (writeFile baseDir true jsonMode confirm st filePath content
          skipConfirmation).1.store
        = st.store ++ [⟨full, fsRead st.fs full, (fsRead st.fs full).isSome⟩] := by
  cases hres : fsResolvePath baseDir filePath with
  | error e =>
    exact absurd (by simp [writeFile, hres]) hmut
  | ok full =>
    refine ⟨full, rfl, ?_, ?_⟩
    · by_cases hc : (!jsonMode && !skipConfirmation && !confirm) = true
      · exact absurd (by simp [writeFile, hres, hc]) hmut
      · simp [writeFile, hres, hc, createCheckpoint, saveCheckpoint]
    · by_cases hc : (!jsonMode && !skipConfirmation && !confirm) = true
      · simp [writeFile, hres, hc, createCheckpoint, saveCheckpoint]
      · simp [writeFile, hres, hc, createCheckpoint, saveCheckpoint]

/-- Witness for C5 at a concrete mutating write. -/
theorem writeFile_checkpoint_before_mutation_witness :
    (writeFile "/b" true true true ⟨[], []⟩ "a.txt" "x" false).1.fs ≠ ([] : FS)
    ∧ ∃ full, fsResolvePath "/b" "a.txt" = Except.ok full
      ∧ (writeFile "/b" true true true ⟨[], []⟩ "a.txt" "x" false).1.fs
          = fsWrite [] full "x"
      ∧ (writeFile "/b" true true true ⟨[], []⟩ "a.txt" "x" false).1.store
          = [] ++ [⟨full, fsRead [] full, (fsRead [] full).isSome⟩] :=
  ⟨by decide,
    writeFile_checkpoint_before_mutation "/b" true true false ⟨[], []⟩ "a.txt" "x" (by decide)⟩

/-! ## C8 -/

/-- Deleting a path removes it. -/
theorem fsRead_fsDelete (fs : FS) (p : String) : fsRead (fsDelete fs p) p = none := by
  induction fs with
  | nil => rfl
  | cons kv rest ih =>
    obtain ⟨k, v⟩ := kv
    by_cases hk : k = p
    · simp [fsDelete, hk, ih]
    · simp [fsDelete, fsRead, hk, ih]

/-- A freshly appended checkpoint is found under its returned id. -/
theorem getCheckpoint_append (store : List Checkpoint) (cp : Checkpoint) :
    getCheckpoint (store ++ [cp]) store.length = some cp := by
  simp [getCheckpoint]

/-- C8: taking a checkpoint of a nonexistent path, writing any content
to that path and reverting to the checkpoint leaves the path
nonexistent again; and taking the checkpoint and reverting immediately
also leaves the path nonexistent. -/
theorem checkpoint_roundtrip_nonexistent (fs : FS) (store : List Checkpoint)
    (p c : String) (h : fsRead fs p = none) :
    (∃ fs2, revertToCheckpoint (fsWrite fs p c) (createCheckpoint fs store p).1
          (createCheckpoint fs store p).2 = Except.ok fs2
        ∧ fsRead fs2 p = none)
    ∧ (∃ fs3, revertToCheckpoint fs (createCheckpoint fs store p).1
          (createCheckpoint fs store p).2 = Except.ok fs3
        ∧ fsRead fs3 p = none) := by
  have hcp : createCheckpoint fs store p = (store ++ [⟨p, none, false⟩], store.length) := by
    simp [createCheckpoint, saveCheckpoint, h]
  rw [hcp]
  constructor
  · exact ⟨fsDelete (fsWrite fs p c) p,
      by simp [revertToCheckpoint, getCheckpoint_append], fsRead_fsDelete _ p⟩
  · exact ⟨fsDelete fs p,
      by simp [revertToCheckpoint, getCheckpoint_append], fsRead_fsDelete _ p⟩

/-- Witness for C8 at a concrete fresh path. -/
theorem checkpoint_roundtrip_nonexistent_witness :
    fsRead ([] : FS) "/b/new.txt" = none
    ∧ ((∃ fs2, revertToCheckpoint (fsWrite [] "/b/new.txt" "data")
            (createCheckpoint [] [] "/b/new.txt").1
            (createCheckpoint [] [] "/b/new.txt").2 = Except.ok fs2
          ∧ fsRead fs2 "/b/new.txt" = none)
      ∧ (∃ fs3, revertToCheckpoint [] (createCheckpoint [] [] "/b/new.txt").1
            (createCheckpoint [] [] "/b/new.txt").2 = Except.ok fs3
          ∧ fsRead fs3 "/b/new.txt" = none)) :=
  ⟨rfl, checkpoint_roundtrip_nonexistent [] [] "/b/new.txt" "data" rfl⟩

end Antigravity
